import Mathlib

/-!
Shallow embedding of the mpi2 crate (src/mpi2/src/lib.rs) of MPI-rs.

The channel layer is modelled at the byte level: the anonymous shared
mapping backing a `TransferBuffer` is a `List Nat` of byte values, and the
operations of the channel (`write_owner`, `current_owner`, the unaligned
payload store/load of `Sender::send` / `Receiver::recv`) are functions on
that list, translated line by line from the Rust source.  `usize` values
are `Nat`; byte stores reduce modulo 256.  The busy-wait
`wait_for_owner` only reads memory, so its effect on the state is the
identity; separately, the sequence of memory operations a completed call
performs is modelled as an explicit trace (`MemOp`) to settle the claims
about fencing.

The launcher (`spawn_processes`, `init`) is modelled as a pure recursion
computing the list of `MpiInformation` records returned across all
processes produced by the fork tree: each loop iteration of the Rust code
forks, the parent continuing the loop with `procs_to_create - 1 - child_procs`
and the child with `child_procs`, rank incremented by `child_procs + 1`.
-/

namespace Mpi2

namespace Channel

def SENDER : Nat := 0

def RECEIVER : Nat := 1

/-- The shared anonymous mapping of a channel.  `TransferBuffer::new(size, owner)`
maps `size + 2` zero bytes (`MmapOptions::new().len(size + 2).map_anon()`)
and then writes the initial owner flag. -/
structure TransferBuffer where
  mmap : List Nat
deriving Repr, DecidableEq

/-- `TransferBuffer::size`: the mapping length minus one. -/
def TransferBuffer.size (b : TransferBuffer) : Nat :=
  b.mmap.length - 1

/-- `TransferBuffer::write_owner`: volatile store of `owner_id` at index `size()`,
i.e. at `mmap.len() - 1`.  A `u8` store keeps only the low byte. -/
def TransferBuffer.write_owner (b : TransferBuffer) (owner_id : Nat) : TransferBuffer :=
  ⟨b.mmap.set b.size (owner_id % 256)⟩

/-- `TransferBuffer::current_owner`: volatile load of the flag byte at index `size()`. -/
def TransferBuffer.current_owner (b : TransferBuffer) : Nat :=
  b.mmap.getD b.size 0

/-- `TransferBuffer::buffer`: the payload slot `&mmap[..size() - 1]`. -/
def TransferBuffer.buffer (b : TransferBuffer) : List Nat :=
  b.mmap.take (b.size - 1)

/-- `TransferBuffer::new(size, owner)`: an anonymous (zero-initialised) mapping
of `size + 2` bytes with the initial owner written into the flag byte. -/
def TransferBuffer.new (size owner : Nat) : TransferBuffer :=
  TransferBuffer.write_owner ⟨List.replicate (size + 2) 0⟩ owner

/-- `TransferBuffer::wait_for_owner`: spins reading the flag; it writes nothing,
so on the state of the mapping a completed wait is the identity. -/
def TransferBuffer.wait_for_owner (b : TransferBuffer) (_owner_id : Nat) : TransferBuffer :=
  b

/-- `Sender::write_unaligned`: `ptr.write_unaligned(src)` through
`buffer_mut().as_mut_ptr() as *mut T` stores the `size_of::<T>()` bytes of
`src` at the start of the mapping. -/
def TransferBuffer.write_bytes (b : TransferBuffer) (data : List Nat) : TransferBuffer :=
  ⟨data.map (fun x => x % 256) ++ b.mmap.drop data.length⟩

/-- `Receiver::read_unaligned`: `ptr.read_unaligned()` through
`buffer().as_ptr() as *const T` loads `size_of::<T>()` bytes from the start
of the mapping. -/
def TransferBuffer.read_bytes (b : TransferBuffer) (len : Nat) : List Nat :=
  b.mmap.take len

/-- Effect of a completed `Sender::send(data)` on the shared buffer:
`wait_for_owner(SENDER)`, then the unaligned payload store, then
`write_owner(RECEIVER)`. -/
def Sender.send (b : TransferBuffer) (data : List Nat) : TransferBuffer :=
  TransferBuffer.write_owner
    (TransferBuffer.write_bytes (TransferBuffer.wait_for_owner b SENDER) data) RECEIVER

/-- `Receiver<T>`: owns the `TransferBuffer`; `size` is `size_of::<T>()`. -/
structure Receiver where
  size : Nat
  buffer : TransferBuffer
deriving Repr, DecidableEq

/-- `Receiver::<T>::new()`: a `TransferBuffer` of payload size `size_of::<T>()`
with initial owner `SENDER`. -/
def Receiver.new (S : Nat) : Receiver :=
  ⟨S, TransferBuffer.new S SENDER⟩

/-- `Receiver::recv()`: wait for `RECEIVER`, unaligned load of `size_of::<T>()`
bytes, `write_owner(SENDER)`, return the loaded bytes. -/
def Receiver.recv (r : Receiver) : List Nat × Receiver :=
  ((TransferBuffer.wait_for_owner r.buffer RECEIVER).read_bytes r.size,
   ⟨r.size, r.buffer.write_owner SENDER⟩)

/-- `Sender<T>`: holds `UnsafeCell<&'a mut TransferBuffer>`, a pointer to the
receiver's buffer.  `none` models the null-pointer case that
`get_buffer_ref` guards against. -/
structure Sender where
  buffer : Option TransferBuffer
deriving Repr, DecidableEq

/-- `Receiver::new_sender`: the sender is built from `&mut self.buffer`,
a valid (non-null) reference. -/
def Receiver.new_sender (r : Receiver) : Sender :=
  ⟨some r.buffer⟩

/-- `Sender::get_buffer_ref`: errors iff the stored pointer is null. -/
def Sender.get_buffer_ref (s : Sender) : Except String TransferBuffer :=
  match s.buffer with
  | none => Except.error "Failed to get reference to buffer"
  | some b => Except.ok b

/-- `Sender::get_buffer_mut`: errors iff the stored pointer is null. -/
def Sender.get_buffer_mut (s : Sender) : Except String TransferBuffer :=
  match s.buffer with
  | none => Except.error "Failed to get mutable reference to buffer"
  | some b => Except.ok b

/-- `Sender::send` with its internal fallible accessors made explicit:
`get_buffer_ref().unwrap().wait_for_owner(SENDER)`, then `write_unaligned`
(which unwraps `get_buffer_mut`), then `get_buffer_mut().unwrap().write_owner(RECEIVER)`.
An `Except.error` result models a panicking `unwrap`. -/
def Sender.send_checked (s : Sender) (data : List Nat) : Except String TransferBuffer :=
  match s.get_buffer_ref with
  | Except.error e => Except.error e
  | Except.ok b =>
    let b1 := TransferBuffer.wait_for_owner b SENDER
    match s.get_buffer_mut with
    | Except.error e => Except.error e
    | Except.ok _ =>
      let b2 := TransferBuffer.write_bytes b1 data
      match s.get_buffer_mut with
      | Except.error e => Except.error e
      | Except.ok _ => Except.ok (TransferBuffer.write_owner b2 RECEIVER)

namespace Trace

/-- A memory operation performed by the channel on the shared mapping, at the
granularity relevant to the fencing claims: volatile flag accesses, the
unaligned payload store/load, and (hypothetical) fences. -/
inductive MemOp where
  | volatileRead : Nat → MemOp
  | volatileWrite : Nat → Nat → MemOp
  | payloadWrite : Nat → MemOp
  | payloadRead : Nat → MemOp
  | releaseFence : MemOp
  | acquireFence : MemOp
deriving Repr, DecidableEq

/-- `MemOp.isFence`: whether an operation is a release or acquire fence. -/
def MemOp.isFence : MemOp → Bool
  | MemOp.releaseFence => true
  | MemOp.acquireFence => true
  | _ => false

/-- Memory operations of a completed `wait_for_owner` on a buffer whose flag
lives at `flagIdx`: one unconditional `current_owner()` volatile read, then
`spins` failing reads of the while-condition, then the final successful
read.  No fence of any kind appears. -/
def wait_for_owner_ops (flagIdx spins : Nat) : List MemOp :=
  List.replicate (spins + 2) (MemOp.volatileRead flagIdx)

/-- Memory operations of a completed `Sender::send` over payload size `S`
(flag at index `S + 1`): the wait, the unaligned payload store, and the
volatile flag store of `RECEIVER`.  No fence is emitted. -/
def send_ops (S spins : Nat) : List MemOp :=
  wait_for_owner_ops (S + 1) spins ++
    [MemOp.payloadWrite S, MemOp.volatileWrite (S + 1) RECEIVER]

/-- Memory operations of a completed `Receiver::recv` over payload size `S`:
the wait, the unaligned payload load, and the volatile flag store of
`SENDER`.  No fence is emitted. -/
def recv_ops (S spins : Nat) : List MemOp :=
  wait_for_owner_ops (S + 1) spins ++
    [MemOp.payloadRead S, MemOp.volatileWrite (S + 1) SENDER]

end Trace

/-- A single operation on one channel, named by the endpoint call that
performs it: `send data` with `data` the byte image of the sent value,
`recv len` with `len = size_of::<T>()`. -/
inductive ChanOp where
  | send : List Nat → ChanOp
  | recv : Nat → ChanOp
deriving Repr, DecidableEq

/-- Effect of one endpoint call on the shared buffer. -/
def applyOp (b : TransferBuffer) : ChanOp → TransferBuffer
  | ChanOp.send data => Sender.send b data
  | ChanOp.recv len => (Receiver.recv ⟨len, b⟩).2.buffer

/-- The buffer after a sequence of completed endpoint calls. -/
def runOps (b : TransferBuffer) (ops : List ChanOp) : TransferBuffer :=
  ops.foldl applyOp b

end Channel

/-- `MpiInformation { n_processes, rank }` as returned by the launcher. -/
structure MpiInformation where
  n_processes : Nat
  rank : Nat
deriving Repr, DecidableEq

/-- Ranks of all processes descending from a process that enters the
`while procs_to_create != 0` loop of `spawn_processes` with the given
`rank` and `procs_to_create`.  One iteration decrements `procs_to_create`
to `k`, computes `child_procs = k / 2` and forks: the parent continues with
`k - child_procs` and its old rank, the child with `child_procs` and
`rank + child_procs + 1`. -/
def spawnRanks : Nat → Nat → List Nat
  | rank, 0 => [rank]
  | rank, (k + 1) =>
    spawnRanks rank (k - k / 2) ++ spawnRanks (rank + k / 2 + 1) (k / 2)
  termination_by _ k => k
  decreasing_by
  · omega
  · omega

/-- `spawn_processes(n)`: the `MpiInformation` records returned across all
processes produced by the fork tree rooted at a process with rank 0 and
`procs_to_create = n`. -/
def spawn_processes (n : Nat) : List MpiInformation :=
  (spawnRanks 0 n).map (fun r => ⟨n, r⟩)

/-- `Iterator::position` as used by `init` on the argument vector: index of
the first element satisfying the predicate. -/
def position (p : String → Bool) : List String → Option Nat
  | [] => none
  | x :: xs => if p x then some 0 else (position p xs).map (fun i => i + 1)

/-- Accumulating decimal evaluation of a digit string; `none` on the first
non-digit character. -/
def digitsToNat (acc : Nat) : List Char → Option Nat
  | [] => some acc
  | c :: cs =>
    if c.isDigit then digitsToNat (10 * acc + (c.toNat - 48)) cs else none

/-- `str::parse::<usize>()`: an optional leading plus sign, then one or more
ASCII digits, and the value must fit in a 64-bit `usize`; anything else is
a parse error. -/
def parse_usize (s : String) : Option Nat :=
  let cs :=
    match s.data with
    | '+' :: rest => rest
    | l => l
  match cs with
  | [] => none
  | _ :: _ =>
    match digitsToNat 0 cs with
    | none => none
    | some v => if v < 2 ^ 64 then some v else none

/-- The `-n` handling of `init`: find the first `"-n"` in the argument
vector; absent → default `8`; present with no following argument →
`none` (index-out-of-bounds panic); otherwise parse the next argument
(`none` models the `expect` panic on a parse error). -/
def parse_n (args : List String) : Option Nat :=
  match position (fun s => s == "-n") args with
  | none => some 8
  | some index =>
    match args.get? (index + 1) with
    | none => none
    | some v => parse_usize v

/-- `init()`: parse `-n` from the argument vector and run `spawn_processes`;
`none` models the fatal parse panic. -/
def init (args : List String) : Option (List MpiInformation) :=
  (parse_n args).map spawn_processes

namespace Channel

theorem write_owner_mmap (b : TransferBuffer) (v : Nat) :
    (b.write_owner v).mmap = b.mmap.set (b.mmap.length - 1) (v % 256) := rfl

theorem write_owner_length (b : TransferBuffer) (v : Nat) :
    (b.write_owner v).mmap.length = b.mmap.length := by
  rw [write_owner_mmap, List.length_set]

theorem current_owner_write_owner (b : TransferBuffer) (v : Nat) (h : b.mmap ≠ []) :
    (b.write_owner v).current_owner = v % 256 := by
  have hlen : 0 < b.mmap.length := List.length_pos.mpr h
  rw [TransferBuffer.current_owner, TransferBuffer.size, write_owner_length,
    write_owner_mmap, List.getD_eq_getElem?_getD,
    List.getElem?_set_self (by omega)]
  rfl

theorem write_bytes_mmap (b : TransferBuffer) (data : List Nat) :
    (b.write_bytes data).mmap =
      data.map (fun x => x % 256) ++ b.mmap.drop data.length := rfl

theorem write_bytes_length (b : TransferBuffer) (data : List Nat)
    (h : data.length ≤ b.mmap.length) :
    (b.write_bytes data).mmap.length = b.mmap.length := by
  rw [write_bytes_mmap, List.length_append, List.length_map, List.length_drop]
  omega

theorem write_bytes_length_ge (b : TransferBuffer) (data : List Nat) :
    b.mmap.length ≤ (b.write_bytes data).mmap.length := by
  rw [write_bytes_mmap, List.length_append, List.length_map, List.length_drop]
  omega

theorem write_bytes_take (b : TransferBuffer) (data : List Nat) :
    (b.write_bytes data).mmap.take data.length = data.map (fun x => x % 256) := by
  rw [write_bytes_mmap]
  have h : data.length = (data.map (fun x => x % 256)).length :=
    (List.length_map data _).symm
  rw [h, List.take_left]

theorem write_bytes_getD_ge (b : TransferBuffer) (data : List Nat) (i : Nat)
    (h : data.length ≤ i) :
    (b.write_bytes data).mmap.getD i 0 = b.mmap.getD i 0 := by
  rw [write_bytes_mmap, List.getD_eq_getElem?_getD, List.getD_eq_getElem?_getD,
    List.getElem?_append_right (by simpa using h), List.length_map,
    List.getElem?_drop]
  congr 2
  omega

theorem take_set_of_le (l : List Nat) (n j : Nat) (a : Nat) (h : n ≤ j) :
    (l.set j a).take n = l.take n := by
  apply List.ext_getElem?
  intro i
  rcases Nat.lt_or_ge i n with hi | hi
  · rw [List.getElem?_take, List.getElem?_take]
    simp only [hi, if_pos]
    exact List.getElem?_set_ne (by omega)
  · rw [List.getElem?_take, List.getElem?_take]
    simp [Nat.not_lt.mpr hi]

theorem getD_set_ne (l : List Nat) (i j a : Nat) (h : i ≠ j) :
    (l.set j a).getD i 0 = l.getD i 0 := by
  rw [List.getD_eq_getElem?_getD, List.getD_eq_getElem?_getD,
    List.getElem?_set_ne (by omega)]

/-- The bytes held in the payload slot right after a completed
`Sender::send(data)`: the flag store at index `size` does not touch the
first `data.length` bytes, which are exactly the stored byte image. -/
theorem send_payload (b : TransferBuffer) (data : List Nat)
    (h : data.length + 2 ≤ b.mmap.length) :
    (Sender.send b data).mmap.take data.length = data.map (fun x => x % 256) := by
  have hlen : (b.write_bytes data).mmap.length = b.mmap.length :=
    write_bytes_length b data (by omega)
  rw [Sender.send, TransferBuffer.wait_for_owner, write_owner_mmap, hlen,
    take_set_of_le _ _ _ _ (by omega), write_bytes_take]

end Channel

end Mpi2

namespace Mpi2

open Channel

/-- C2: for a channel of a byte-copyable type of size `S`, from any buffer
state (any flag value, any payload residue), a completed `Sender::send` of
the byte image `v` followed by a completed `Receiver::recv` returns exactly
`v`, byte for byte. -/
theorem c2_send_recv_roundtrip (S : Nat) (b : TransferBuffer) (v : List Nat)
    (hb : b.mmap.length = S + 2) (hv : v.length = S)
    (hbytes : ∀ x ∈ v, x < 256) :
    (Receiver.recv ⟨S, Sender.send b v⟩).1 = v := by
  have h1 : (Sender.send b v).mmap.take v.length = v.map (fun x => x % 256) :=
    send_payload b v (by omega)
  have h2 : v.map (fun x => x % 256) = v := by
    rw [List.map_congr_left (fun x hx => Nat.mod_eq_of_lt (hbytes x hx))]
    simp
  simp only [Receiver.recv, TransferBuffer.wait_for_owner, TransferBuffer.read_bytes]
  rw [← hv, h1, h2]

/-- C2 witness: a concrete round trip over a 2-byte payload starting from a
buffer whose flag is initially `RECEIVER`. -/
theorem c2_witness :
    (Receiver.recv ⟨2, Sender.send (TransferBuffer.new 2 RECEIVER) [7, 9]⟩).1 = [7, 9] :=
  c2_send_recv_roundtrip 2 (TransferBuffer.new 2 RECEIVER) [7, 9]
    (by decide) (by decide) (by decide)

/-- C4: immediately after a completed `Sender::send` the ownership flag reads
`RECEIVER`, and immediately after a completed `Receiver::recv` the flag
reads `SENDER`. -/
theorem c4_flag_handoff (S : Nat) (b : TransferBuffer) (v : List Nat)
    (hb : b.mmap.length = S + 2) (hv : v.length = S) :
    (Sender.send b v).current_owner = RECEIVER ∧
    (Receiver.recv ⟨S, b⟩).2.buffer.current_owner = SENDER := by
  constructor
  · rw [Sender.send, TransferBuffer.wait_for_owner,
      current_owner_write_owner _ _ (by
        have := write_bytes_length b v (by omega)
        intro hnil
        rw [hnil] at this
        simp at this
        omega)]
    rfl
  · simp only [Receiver.recv]
    rw [current_owner_write_owner _ _ (by
      intro hnil
      rw [hnil] at hb
      simp at hb)]
    rfl

/-- C4 witness: the handoff on a concrete 1-byte channel. -/
theorem c4_witness :
    (Sender.send (TransferBuffer.new 1 SENDER) [5]).current_owner = RECEIVER ∧
    (Receiver.recv ⟨1, TransferBuffer.new 1 SENDER⟩).2.buffer.current_owner = SENDER :=
  c4_flag_handoff 1 (TransferBuffer.new 1 SENDER) [5] (by decide) (by decide)

theorem new_mmap (S owner : Nat) :
    (TransferBuffer.new S owner).mmap =
      (List.replicate (S + 2) 0).set (S + 1) (owner % 256) := by
  rw [TransferBuffer.new, write_owner_mmap]
  congr 1
  simp

/-- C3 counterexample: for payload size `S = 4` the mapping created by
`TransferBuffer::new` has length 6, not `S + 1 = 5`, and an initial owner of
`RECEIVER` lands at index 5, not at index `S = 4`. -/
theorem c3_counterexample :
    (TransferBuffer.new 4 RECEIVER).mmap.length ≠ 4 + 1 ∧
    (TransferBuffer.new 4 RECEIVER).mmap.getD 4 0 ≠ RECEIVER ∧
    (TransferBuffer.new 4 RECEIVER).mmap.getD 5 0 = RECEIVER := by decide

/-- C3 amended: the `TransferBuffer` backing a channel for payload size `S` is
a shared byte region of length `S + 2`; bytes `[0..S)` are the payload slot,
byte `[S]` is unused padding, and the ownership flag holding `SENDER` (0) or
`RECEIVER` (1) sits at index `S + 1` (the code's `size()` = mapping length
minus one). -/
theorem c3_amended_layout (S owner : Nat) (h : owner < 256) :
    (TransferBuffer.new S owner).mmap.length = S + 2 ∧
    (TransferBuffer.new S owner).size = S + 1 ∧
    (TransferBuffer.new S owner).buffer = List.replicate S 0 ∧
    (TransferBuffer.new S owner).current_owner = owner ∧
    (TransferBuffer.new S owner).mmap.getD (S + 1) 0 = owner := by
  have hlen : (TransferBuffer.new S owner).mmap.length = S + 2 := by
    rw [new_mmap, List.length_set, List.length_replicate]
  have hsize : (TransferBuffer.new S owner).size = S + 1 := by
    rw [TransferBuffer.size, hlen]
    omega
  have hgd : (TransferBuffer.new S owner).mmap.getD (S + 1) 0 = owner := by
    rw [new_mmap, List.getD_eq_getElem?_getD,
      List.getElem?_set_self (by simp), Option.getD_some, Nat.mod_eq_of_lt h]
  refine ⟨hlen, hsize, ?_, ?_, hgd⟩
  · rw [TransferBuffer.buffer, hsize, new_mmap,
      take_set_of_le _ _ _ _ (by omega), List.take_replicate]
    congr 1
    omega
  · rw [TransferBuffer.current_owner, hsize]
    exact hgd

/-- C3 amended witness: the layout at `S = 4` with initial owner `RECEIVER`. -/
theorem c3_witness :
    (TransferBuffer.new 4 RECEIVER).mmap.length = 4 + 2 ∧
    (TransferBuffer.new 4 RECEIVER).size = 4 + 1 ∧
    (TransferBuffer.new 4 RECEIVER).buffer = List.replicate 4 0 ∧
    (TransferBuffer.new 4 RECEIVER).current_owner = RECEIVER ∧
    (TransferBuffer.new 4 RECEIVER).mmap.getD (4 + 1) 0 = RECEIVER :=
  c3_amended_layout 4 RECEIVER (by decide)

theorem write_bytes_ne_nil (b : TransferBuffer) (data : List Nat)
    (h : b.mmap ≠ []) : (b.write_bytes data).mmap ≠ [] := by
  intro hnil
  have h1 := write_bytes_length_ge b data
  rw [hnil] at h1
  simp at h1
  exact h h1

theorem applyOp_mmap_ne_nil (b : TransferBuffer) (op : ChanOp)
    (h : b.mmap ≠ []) : (applyOp b op).mmap ≠ [] := by
  cases op with
  | send data =>
    simp only [applyOp, Sender.send, TransferBuffer.wait_for_owner]
    intro hnil
    have h2 := write_owner_length (b.write_bytes data) RECEIVER
    rw [hnil] at h2
    simp at h2
    exact write_bytes_ne_nil b data h (List.length_eq_zero.mp h2.symm)
  | recv len =>
    simp only [applyOp, Receiver.recv]
    intro hnil
    have h2 := write_owner_length b SENDER
    rw [hnil] at h2
    simp at h2
    exact h (List.length_eq_zero.mp h2.symm)

theorem applyOp_owner (b : TransferBuffer) (op : ChanOp) (h : b.mmap ≠ []) :
    (applyOp b op).current_owner = SENDER ∨
    (applyOp b op).current_owner = RECEIVER := by
  cases op with
  | send data =>
    right
    simp only [applyOp, Sender.send, TransferBuffer.wait_for_owner]
    rw [current_owner_write_owner _ _ (write_bytes_ne_nil b data h)]
    rfl
  | recv len =>
    left
    simp only [applyOp, Receiver.recv]
    rw [current_owner_write_owner _ _ h]
    rfl

theorem runOps_owner (ops : List ChanOp) : ∀ b : TransferBuffer,
    b.mmap ≠ [] →
    (b.current_owner = SENDER ∨ b.current_owner = RECEIVER) →
    ((runOps b ops).current_owner = SENDER ∨
     (runOps b ops).current_owner = RECEIVER) := by
  induction ops with
  | nil => intro b _ h2; exact h2
  | cons op ops ih =>
    intro b h1 _
    exact ih (applyOp b op) (applyOp_mmap_ne_nil b op h1) (applyOp_owner b op h1)

/-- C9: the channel constructed by `Receiver::new` starts with the flag at
`SENDER`, and after any sequence of completed `send`/`recv` calls the flag
is still either `SENDER` or `RECEIVER`: every flag write of the channel
layer stores one of the two values. -/
theorem c9_flag_always_sender_or_receiver (S : Nat) (ops : List ChanOp) :
    (Receiver.new S).buffer.current_owner = SENDER ∧
    ((runOps (Receiver.new S).buffer ops).current_owner = SENDER ∨
     (runOps (Receiver.new S).buffer ops).current_owner = RECEIVER) := by
  have hne : (Receiver.new S).buffer.mmap ≠ [] := by
    show (TransferBuffer.new S SENDER).mmap ≠ []
    rw [new_mmap]
    intro hnil
    have := congrArg List.length hnil
    simp at this
  have hinit : (Receiver.new S).buffer.current_owner = SENDER := by
    show (TransferBuffer.new S SENDER).current_owner = SENDER
    rw [TransferBuffer.new, current_owner_write_owner _ _ (by
      intro hnil
      have := congrArg List.length hnil
      simp at this)]
    rfl
  exact ⟨hinit, runOps_owner ops _ hne (Or.inl hinit)⟩

/-- C10: a completed `Sender::send` changes at most the `sizeof(T)` payload
bytes and the flag byte of the shared mapping, and a completed
`Receiver::recv` changes at most the flag byte, leaving the payload slot
untouched; every other byte of the mapping is unchanged by both. -/
theorem c10_frame_effect (S : Nat) (b : TransferBuffer) (v : List Nat)
    (hb : b.mmap.length = S + 2) (hv : v.length = S) :
    (∀ i, S ≤ i → i ≠ S + 1 →
      (Sender.send b v).mmap.getD i 0 = b.mmap.getD i 0) ∧
    (∀ i, i ≠ S + 1 →
      (Receiver.recv ⟨S, b⟩).2.buffer.mmap.getD i 0 = b.mmap.getD i 0) ∧
    (Receiver.recv ⟨S, b⟩).2.buffer.mmap.take S = b.mmap.take S := by
  have hidx : b.mmap.length - 1 = S + 1 := by omega
  refine ⟨?_, ?_, ?_⟩
  · intro i hSi hne
    have hlen : (b.write_bytes v).mmap.length = b.mmap.length :=
      write_bytes_length b v (by omega)
    rw [Sender.send, TransferBuffer.wait_for_owner, write_owner_mmap, hlen, hidx,
      getD_set_ne _ _ _ _ hne, write_bytes_getD_ge _ _ _ (by omega)]
  · intro i hne
    simp only [Receiver.recv]
    rw [write_owner_mmap, hidx, getD_set_ne _ _ _ _ hne]
  · simp only [Receiver.recv]
    rw [write_owner_mmap, hidx, take_set_of_le _ _ _ _ (by omega)]

/-- C10 witness: the frame property on a concrete 1-byte channel, checked at
the untouched guard byte (index 1) for `send` and at the payload byte for
`recv`. -/
theorem c10_witness :
    (Sender.send (TransferBuffer.new 1 SENDER) [9]).mmap.getD 1 0 =
      (TransferBuffer.new 1 SENDER).mmap.getD 1 0 ∧
    (Receiver.recv ⟨1, TransferBuffer.new 1 SENDER⟩).2.buffer.mmap.getD 0 0 =
      (TransferBuffer.new 1 SENDER).mmap.getD 0 0 ∧
    (Receiver.recv ⟨1, TransferBuffer.new 1 SENDER⟩).2.buffer.mmap.take 1 =
      (TransferBuffer.new 1 SENDER).mmap.take 1 := by
  have h := c10_frame_effect 1 (TransferBuffer.new 1 SENDER) [9]
    (by decide) (by decide)
  exact ⟨h.1 1 (by omega) (by omega), h.2.1 0 (by omega), h.2.2⟩

/-- C6: `Sender::send` cannot hit its error branches: for a sender built by
`Receiver::new_sender` (the only constructor), both internal
`get_buffer_ref`/`get_buffer_mut` unwraps succeed and `send` completes with
the expected buffer update, returning no error for any payload. -/
theorem c6_send_never_fails (r : Receiver) (data : List Nat) :
    Sender.send_checked (Receiver.new_sender r) data =
      Except.ok (Sender.send r.buffer data) := rfl

/-- C5 counterexample: at payload size 4 and a spin-free wait, the memory
operations of a completed `send` contain no release fence and those of a
completed `recv` contain no acquire fence: the code uses only volatile
accesses. -/
theorem c5_counterexample :
    Trace.MemOp.releaseFence ∉ Trace.send_ops 4 0 ∧
    Trace.MemOp.acquireFence ∉ Trace.recv_ops 4 0 := by decide

/-- C5 amended: `send` and `recv` emit no fence at all: every memory
operation of a completed `send` or `recv` (for any payload size and any
number of spin iterations) is a volatile flag access or the unaligned
payload copy; the release/acquire pairing required by the spec is absent,
visibility resting on the platform's coherent caches. -/
theorem c5_amended_no_fences (S spins : Nat) :
    (Trace.send_ops S spins).all (fun op => !op.isFence) = true ∧
    (Trace.recv_ops S spins).all (fun op => !op.isFence) = true := by
  constructor <;>
  · rw [List.all_eq_true]
    intro op hop
    simp only [Trace.send_ops, Trace.recv_ops, Trace.wait_for_owner_ops,
      List.mem_append, List.mem_replicate, List.mem_cons,
      List.mem_singleton] at hop
    rcases hop with ⟨_, rfl⟩ | rfl | rfl | h
    · rfl
    · rfl
    · rfl
    · simp at h

theorem spawnRanks_length (n : Nat) : ∀ r, (spawnRanks r n).length = n + 1 := by
  induction n using Nat.strong_induction_on with
  | _ n ih =>
    match n with
    | 0 =>
      intro r
      simp [spawnRanks]
    | (k + 1) =>
      intro r
      simp only [spawnRanks, List.length_append,
        ih (k - k / 2) (by omega), ih (k / 2) (by omega)]
      omega

/-- C1: the fork tree miscounts.  `spawn_processes(1)` produces two live
processes (records with ranks 0 and 1), not one; `spawn_processes` with
`procs_to_create = 2` yields the duplicate rank multiset `[0, 1, 1]`; and in
general `spawn_processes(n)` produces `n + 1` processes, never `n`, because
the loop forks even when `child_procs = 0`. -/
theorem c1_rank_assignment_bug :
    spawn_processes 1 = [⟨1, 0⟩, ⟨1, 1⟩] ∧
    spawnRanks 0 2 = [0, 1, 1] ∧
    (∀ n : Nat, (spawn_processes n).length = n + 1) := by
  refine ⟨?_, ?_, ?_⟩
  · simp [spawn_processes, spawnRanks]
  · simp [spawnRanks]
  · intro n
    rw [spawn_processes, List.length_map, spawnRanks_length n 0]

/-- C7 counterexample: invoking the launcher with `-n 0` is not an error: it
returns normally with the record `MpiInformation { n_processes: 0, rank: 0 }`
in the calling process. -/
theorem c7_counterexample :
    init ["prog", "-n", "0"] = some [MpiInformation.mk 0 0] := by
  have h1 : parse_n ["prog", "-n", "0"] = some 0 := by decide
  rw [init, h1]
  simp [spawn_processes, spawnRanks]

/-- C7 amended: the launcher performs no `N < 1` check: `spawn_processes(0)`
skips the loop entirely and returns `MpiInformation { n_processes: 0, rank: 0 }`
in the single calling process, rather than terminating with a diagnostic. -/
theorem c7_amended_zero_returns_record :
    spawn_processes 0 = [MpiInformation.mk 0 0] ∧
    (spawnRanks 0 0).length = 1 := by
  constructor
  · simp [spawn_processes, spawnRanks]
  · simp [spawnRanks]

theorem position_none (p : String → Bool) :
    ∀ l : List String, (∀ x ∈ l, p x = false) → position p l = none := by
  intro l
  induction l with
  | nil => intro _; rfl
  | cons x xs ih =>
    intro h
    simp only [position]
    rw [h x (by simp)]
    simp only [if_neg Bool.false_ne_true]
    rw [ih (fun y hy => h y (by simp [hy]))]
    rfl

theorem position_append (p : String → Bool) (x : String) (r : List String)
    (hx : p x = true) :
    ∀ l : List String, (∀ y ∈ l, p y = false) →
      position p (l ++ x :: r) = some l.length := by
  intro l
  induction l with
  | nil =>
    intro _
    simp [position, hx]
  | cons a as ih =>
    intro h
    simp only [List.cons_append, position]
    rw [h a (by simp)]
    simp only [if_neg Bool.false_ne_true, List.append_eq]
    rw [ih (fun y hy => h y (by simp [hy]))]
    simp

theorem parse_n_position_some (args : List String) (i : Nat)
    (h : position (fun s => s == "-n") args = some i) :
    parse_n args =
      match args.get? (i + 1) with
      | none => none
      | some v => parse_usize v := by
  unfold parse_n
  rw [h]

/-- C8: `init`'s handling of the invocation argument vector: when no `"-n"`
occurs, the default `N = 8` is used; when the first `"-n"` is the last
argument, `init` panics (models as `none`); otherwise `init` parses the
following argument with `usize` semantics, panicking on a parse failure and
launching with the parsed `N` on success. -/
theorem c8_cli_parsing (pre : List String) (v : String) (rest : List String)
    (hpre : ∀ s ∈ pre, s ≠ "-n") :
    (∀ args : List String, (∀ s ∈ args, s ≠ "-n") → parse_n args = some 8) ∧
    parse_n (pre ++ ["-n"]) = none ∧
    parse_n (pre ++ "-n" :: v :: rest) = parse_usize v ∧
    init (pre ++ "-n" :: v :: rest) = (parse_usize v).map spawn_processes := by
  have hpre' : ∀ y ∈ pre, (fun s => s == "-n") y = false := fun y hy => by
    simpa using hpre y hy
  have h3 : parse_n (pre ++ "-n" :: v :: rest) = parse_usize v := by
    rw [parse_n_position_some _ pre.length
      (position_append _ "-n" (v :: rest) (by simp) pre hpre')]
    have hget : (pre ++ "-n" :: v :: rest).get? (pre.length + 1) = some v := by
      rw [List.get?_eq_getElem?, List.getElem?_append_right (by omega)]
      simp
    rw [hget]
  refine ⟨?_, ?_, h3, ?_⟩
  · intro args hargs
    unfold parse_n
    rw [position_none _ args (fun y hy => by simpa using hargs y hy)]
  · rw [parse_n_position_some _ pre.length
      (position_append _ "-n" [] (by simp) pre hpre')]
    have hget : (pre ++ ["-n"]).get? (pre.length + 1) = none := by
      rw [List.get?_eq_none]
      simp
    rw [hget]
  · rw [init, h3]

/-- C8 witness: the three behaviours on concrete argument vectors. -/
theorem c8_witness :
    parse_n ["prog"] = some 8 ∧
    parse_n ["prog", "-n"] = none ∧
    parse_n ["prog", "-n", "17"] = parse_usize "17" := by
  have h := c8_cli_parsing ["prog"] "17" [] (by decide)
  exact ⟨h.1 ["prog"] (by decide), h.2.1, h.2.2.1⟩

end Mpi2

